import Mathlib

/-!
Verification of the per-tick simulation core of Soo Nova Defense
(`src/src/App.tsx`).

Modelling conventions:
* JavaScript `number` values are embedded as exact rationals `ℚ`; the
  integer-valued quantities (score, ammo, round, high score) are embedded
  as `ℤ`.
* `Math.sqrt` has no computable counterpart on `ℚ`, so the kinematics step
  functions take the length computed by `Math.sqrt` as an explicit argument,
  constrained in theorems by the predicate `IsSqrt` (the exact defining
  property of the square root).  For the degenerate zero-length case the
  IEEE behaviour of `0/0 = NaN` is embedded separately with `Option ℚ`
  (`none` = non-finite), see the `JS` definitions below.
* Purely visual entities (particles, floating texts, warnings, camera
  shake) and the random entity ids/colors carry no gameplay state and are
  omitted; randomness (`Math.random`) is replaced by explicit parameters
  covered by universal quantification.
-/

namespace SooNova

/-- Game states, from `type GameState` (App.tsx line 12). -/
inductive GameState where
  | START
  | PLAYING
  | WON
  | LOST
  | ROUND_OVER
deriving DecidableEq, Repr

/-- Game modes, from `type GameMode` (App.tsx line 13). -/
inductive GameMode where
  | CLASSIC
  | ENDLESS
deriving DecidableEq, Repr

/-- Constant `WIN_SCORE = 1000` (line 87). -/
def WIN_SCORE : ℤ := 1000

/-- Constant `ROCKET_SCORE = 20` (line 88). -/
def ROCKET_SCORE : ℤ := 20

/-- Constant `EXPLOSION_SPEED = 1.8` (line 89). -/
def EXPLOSION_SPEED : ℚ := 9 / 5

/-- Constant `EXPLOSION_MAX_RADIUS = 75` (line 90). -/
def EXPLOSION_MAX_RADIUS : ℚ := 75

/-- Constant `INTERCEPTOR_SPEED = 9` (line 91). -/
def INTERCEPTOR_SPEED : ℚ := 9

/-- Constant `ROCKET_BASE_SPEED = 1.2` (line 92). -/
def ROCKET_BASE_SPEED : ℚ := 6 / 5

/-- A 2-D point, from `interface Point` (lines 15-18). -/
structure Point where
  x : ℚ
  y : ℚ
deriving DecidableEq, Repr

/-- A turret, from `interface Turret` (lines 73-79); `ammo`/`maxAmmo` are
integer-valued numbers in the source. -/
structure Turret where
  x : ℚ
  y : ℚ
  ammo : ℤ
  maxAmmo : ℤ
  active : Bool
deriving DecidableEq, Repr

/-- A city, from `interface City` (lines 81-85). -/
structure City where
  x : ℚ
  y : ℚ
  active : Bool
deriving DecidableEq, Repr

/-- A rocket, from `interface Rocket` (lines 20-27); the random `id` and
the constant `color` have no effect on the simulation and are omitted. -/
structure Rocket where
  start : Point
  «end» : Point
  current : Point
  speed : ℚ
deriving DecidableEq, Repr

/-- An interceptor, from `interface Interceptor` (lines 29-36); the random
`id` is omitted. -/
structure Interceptor where
  start : Point
  target : Point
  current : Point
  speed : ℚ
  turretIndex : ℕ
deriving DecidableEq, Repr

/-- An explosion, from `interface Explosion` (lines 38-45); the random `id`
is omitted. -/
structure Explosion where
  pos : Point
  radius : ℚ
  maxRadius : ℚ
  growing : Bool
  alpha : ℚ
deriving DecidableEq, Repr

/-- Squared Euclidean distance between two points; `Math.sqrt` of this value
is what the source computes at lines 292, 330, 355 and 380. -/
def distSq (p q : Point) : ℚ :=
  (q.x - p.x) * (q.x - p.x) + (q.y - p.y) * (q.y - p.y)

/-- Defining property of the value returned by `Math.sqrt v`: `d = √v`.
Used to constrain the explicit length arguments of the kinematics steps. -/
def IsSqrt (v d : ℚ) : Prop := 0 ≤ d ∧ d * d = v

instance (v d : ℚ) : Decidable (IsSqrt v d) := by
  unfold IsSqrt; infer_instance

/-- Kinematics step for one rocket (lines 328-332): move `current` by the
normalized start→end direction times `speed`.  `dist` is the value
`Math.sqrt(dx*dx + dy*dy)` computed by the source. -/
def rocketMove (r : Rocket) (dist : ℚ) : Rocket :=
  let dx := r.«end».x - r.start.x
  let dy := r.«end».y - r.start.y
  { r with current := ⟨r.current.x + dx / dist * r.speed,
                       r.current.y + dy / dist * r.speed⟩ }

/-- Arrival test for a rocket (line 334): `rocket.current.y >= rocket.end.y`. -/
def rocketArrived (r : Rocket) : Prop := r.«end».y ≤ r.current.y

instance (r : Rocket) : Decidable (rocketArrived r) := by
  unfold rocketArrived; infer_instance

/-- Kinematics step for one interceptor (lines 353-357). -/
def interceptorMove (i : Interceptor) (dist : ℚ) : Interceptor :=
  let dx := i.target.x - i.start.x
  let dy := i.target.y - i.start.y
  { i with current := ⟨i.current.x + dx / dist * i.speed,
                       i.current.y + dy / dist * i.speed⟩ }

/-- Arrival test for an interceptor (line 359): `inter.current.y <= inter.target.y`. -/
def interceptorArrived (i : Interceptor) : Prop := i.current.y ≤ i.target.y

/-- Explosion created by a rocket ground impact (lines 335-337):
`radius: 2, maxRadius: 55, growing: true, alpha: 1`. -/
def groundExplosion (p : Point) : Explosion :=
  ⟨p, 2, 55, true, 1⟩

/-- Explosion created by an interceptor detonation or a chained rocket kill
(lines 360-362 and 384-386): `radius: 2, maxRadius: EXPLOSION_MAX_RADIUS`. -/
def blastExplosion (p : Point) : Explosion :=
  ⟨p, 2, EXPLOSION_MAX_RADIUS, true, 1⟩

/-- One tick of the explosion lifecycle (lines 369-375): while growing the
radius grows by `EXPLOSION_SPEED`, flipping `growing` once it reaches
`maxRadius`; while shrinking the radius shrinks by `EXPLOSION_SPEED * 0.4`
and `alpha` decays by `0.02`. -/
def stepExplosion (e : Explosion) : Explosion :=
  if e.growing then
    { e with radius := e.radius + EXPLOSION_SPEED,
             growing := decide (e.radius + EXPLOSION_SPEED < e.maxRadius) }
  else
    { e with radius := e.radius - EXPLOSION_SPEED * (2 / 5),
             alpha := e.alpha - 1 / 50 }

/-- Liveness filter for explosions (line 391): `exp.radius > 0 && exp.alpha > 0`. -/
def explosionAlive (e : Explosion) : Prop := 0 < e.radius ∧ 0 < e.alpha

instance (e : Explosion) : Decidable (explosionAlive e) := by
  unfold explosionAlive; infer_instance

/-- Ground-impact damage to cities (lines 341-343): deactivate every active
city whose x-position is within 25 px of the impact x-position `ix`. -/
def impactCities (ix : ℚ) (cs : List City) : List City :=
  cs.map fun c => if c.active = true ∧ |c.x - ix| < 25 then { c with active := false } else c

/-- Ground-impact damage to turrets (lines 344-346). -/
def impactTurrets (ix : ℚ) (ts : List Turret) : List Turret :=
  ts.map fun t => if t.active = true ∧ |t.x - ix| < 25 then { t with active := false } else t

/-- Refill every active turret to its `maxAmmo`; the body of the `forEach`
loops at lines 414-419, 427-432 and 448. -/
def refillActive (ts : List Turret) : List Turret :=
  ts.map fun t => if t.active = true then { t with ammo := t.maxAmmo } else t

/-- One-time 500-point ammo refill (lines 412-423): fires when
`score >= 500 && !hasRefilledAt500`, refilling active turrets and setting
the latch.  Returns the new turret list and the new latch value.  The
condition does not mention the game mode. -/
def refill500 (score : ℤ) (hasRefilledAt500 : Bool) (ts : List Turret) :
    List Turret × Bool :=
  if 500 ≤ score ∧ hasRefilledAt500 = false then (refillActive ts, true)
  else (ts, hasRefilledAt500)

/-- Endless-mode 800-point refill (lines 425-435): fires when
`gameMode === 'ENDLESS' && score > 0 && score % 800 === 0 &&
score !== lastRefillScore`.  Returns the new turret list and the new
`lastRefillScore`. -/
def refill800 (mode : GameMode) (score lastRefillScore : ℤ) (ts : List Turret) :
    List Turret × ℤ :=
  if mode = GameMode.ENDLESS ∧ 0 < score ∧ score % 800 = 0 ∧ score ≠ lastRefillScore then
    (refillActive ts, score)
  else (ts, lastRefillScore)

/-- Win/loss check (lines 437-445): classic-mode win takes the first branch
of the `if/else if` chain; otherwise if every turret is inactive the state
becomes LOST and a strictly larger score is persisted as the new high
score.  Returns the resulting game state and the persisted high score. -/
def checkWinLoss (mode : GameMode) (score highScore : ℤ) (ts : List Turret) :
    GameState × ℤ :=
  if mode = GameMode.CLASSIC ∧ WIN_SCORE ≤ score then (GameState.WON, highScore)
  else if ts.all fun t => t.active = false then
    (GameState.LOST, if highScore < score then score else highScore)
  else (GameState.PLAYING, highScore)

/-- Round advancement (lines 447-450): when the rocket list and interceptor
list are empty (`nRockets`/`nInterceptors` are their lengths) and every
turret's ammo is 0, refill active turrets and increment the round. -/
def roundAdvance (nRockets nInterceptors : ℕ) (ts : List Turret) (round : ℤ) :
    List Turret × ℤ :=
  if nRockets = 0 ∧ (∀ t ∈ ts, t.ammo = 0) ∧ nInterceptors = 0 then
    (refillActive ts, round + 1)
  else (ts, round)

/-- Rocket spawning (lines 249-270): pool the active cities and active
turrets (in that order, mirroring the array spread), return `none` when the
pool is empty, otherwise build the rocket targeting the picked entry.
`startX` stands for `Math.random() * width` and `pick` for the random index
`Math.floor(Math.random() * targets.length)` (reduced mod the pool size to
keep the function total); the warning entity is visual-only and omitted. -/
def spawnTargets (cities : List City) (turrets : List Turret) : List Point :=
  (cities.filter fun c => c.active).map (fun c => ⟨c.x, c.y⟩) ++
  (turrets.filter fun t => t.active).map (fun t => ⟨t.x, t.y⟩)

/-- Rocket spawning, continued: `spawnTargets` above is the `targets` local
of line 251 (active cities then active turrets, mirroring the array
spread). -/
def spawnRocket (startX : ℚ) (pick : ℕ) (round : ℤ) (cities : List City)
    (turrets : List Turret) : Option Rocket :=
  if h : (spawnTargets cities turrets).length = 0 then none
  else
    let target := (spawnTargets cities turrets).get
      ⟨pick % (spawnTargets cities turrets).length, Nat.mod_lt _ (Nat.pos_of_ne_zero h)⟩
    some { start := ⟨startX, 0⟩, «end» := ⟨target.x, target.y⟩,
           current := ⟨startX, 0⟩,
           speed := ROCKET_BASE_SPEED + (round : ℚ) * (3 / 20) }

/-- Coordinates under IEEE semantics: `none` models a non-finite value
(NaN/±∞); all finite values are exact rationals. -/
def JSNum : Type := Option ℚ

instance : DecidableEq JSNum := by unfold JSNum; infer_instance

/-- IEEE addition on the embedded numbers: a non-finite operand propagates. -/
def jsAdd (a b : JSNum) : JSNum :=
  match a, b with
  | some a, some b => some (a + b)
  | _, _ => none

/-- IEEE multiplication on the embedded numbers. -/
def jsMul (a b : JSNum) : JSNum :=
  match a, b with
  | some a, some b => some (a * b)
  | _, _ => none

/-- IEEE division: division by zero yields a non-finite value (`0/0 = NaN`,
which is the case produced by a zero-length direction vector). -/
def jsDiv (a b : JSNum) : JSNum :=
  match a, b with
  | some a, some b => if b = 0 then none else some (a / b)
  | _, _ => none

/-- IEEE comparison `a >= b`: false when either side is NaN. -/
def jsGe (a b : JSNum) : Bool :=
  match a, b with
  | some a, some b => decide (b ≤ a)
  | _, _ => false

/-- IEEE comparison `a <= b`: false when either side is NaN. -/
def jsLe (a b : JSNum) : Bool :=
  match a, b with
  | some a, some b => decide (a ≤ b)
  | _, _ => false

/-- A point whose coordinates may be non-finite. -/
structure JSPoint where
  x : JSNum
  y : JSNum
deriving DecidableEq

/-- A rocket whose `current` position may become non-finite, for the
degenerate-geometry analysis of lines 327-350. -/
structure RocketJS where
  start : Point
  «end» : Point
  current : JSPoint
  speed : ℚ
deriving DecidableEq

/-- An interceptor whose `current` position may become non-finite, for the
degenerate-geometry analysis of lines 352-366. -/
structure InterceptorJS where
  start : Point
  target : Point
  current : JSPoint
  speed : ℚ
deriving DecidableEq

/-- Kinematics step of lines 328-332 under IEEE semantics: `dist` is the
value `Math.sqrt(dx*dx + dy*dy)` (for a zero-length direction this is `0`,
and `0/0` is NaN). -/
def rocketMoveJS (r : RocketJS) (dist : ℚ) : RocketJS :=
  let dx := r.«end».x - r.start.x
  let dy := r.«end».y - r.start.y
  { r with current := ⟨jsAdd r.current.x (jsMul (jsDiv (some dx) (some dist)) (some r.speed)),
                       jsAdd r.current.y (jsMul (jsDiv (some dy) (some dist)) (some r.speed))⟩ }

/-- Arrival test of line 334 under IEEE semantics: `current.y >= end.y`,
false when `current.y` is NaN. -/
def rocketArrivedJS (r : RocketJS) : Bool := jsGe r.current.y (some r.«end».y)

/-- Kinematics step of lines 353-357 under IEEE semantics. -/
def interceptorMoveJS (i : InterceptorJS) (dist : ℚ) : InterceptorJS :=
  let dx := i.target.x - i.start.x
  let dy := i.target.y - i.start.y
  { i with current := ⟨jsAdd i.current.x (jsMul (jsDiv (some dx) (some dist)) (some i.speed)),
                       jsAdd i.current.y (jsMul (jsDiv (some dy) (some dist)) (some i.speed))⟩ }

/-- Arrival test of line 359 under IEEE semantics: `current.y <= target.y`,
false when `current.y` is NaN. -/
def interceptorArrivedJS (i : InterceptorJS) : Bool := jsLe i.current.y (some i.target.y)

/-- Comparison `dist < minDist` of line 293, with `none` standing for the
initial `minDist = Infinity`.  The stored quantity is the squared distance:
`Math.sqrt` is strictly monotone, so comparing squared distances selects
exactly the same turret as the source's comparison of square roots. -/
def closerThan (d : ℚ) (acc : Option (ℕ × ℚ)) : Bool :=
  match acc with
  | none => true
  | some p => decide (d < p.2)

/-- Scan of the `forEach` at lines 288-298: walk the turret list carrying
the index `i` and the best `(index, squared distance)` found so far; only
turrets with `active && ammo > 0` are eligible. -/
def bestScan (x y : ℚ) : List Turret → ℕ → Option (ℕ × ℚ) → Option (ℕ × ℚ)
  | [], _, acc => acc
  | t :: rest, i, acc =>
      bestScan x y rest (i + 1)
        (if t.active = true ∧ 0 < t.ammo ∧ closerThan (distSq ⟨t.x, t.y⟩ ⟨x, y⟩) acc = true
         then some (i, distSq ⟨t.x, t.y⟩ ⟨x, y⟩) else acc)

/-- Click handling core of `handleCanvasClick` (lines 288-311): find the
nearest active turret with ammo; if none, the click is a no-op; otherwise
decrement its ammo and create an interceptor from it to the click point. -/
def clickLaunch (x y : ℚ) (ts : List Turret) : List Turret × Option Interceptor :=
  match bestScan x y ts 0 none with
  | none => (ts, none)
  | some (i, _) =>
      match ts[i]? with
      | none => (ts, none)
      | some t =>
          (ts.set i { t with ammo := t.ammo - 1 },
           some ⟨⟨t.x, t.y⟩, ⟨x, y⟩, ⟨t.x, t.y⟩, INTERCEPTOR_SPEED, i⟩)

/-- Aggregate match state: the React state and refs that the progression
logic of `update` reads and writes (lines 163-187).  The in-flight rocket,
interceptor and explosion lists are supplied to each tick as parameters
(their evolution is the kinematics/collision code modelled separately
above). -/
structure Sim where
  gameMode : GameMode
  gameState : GameState
  score : ℤ
  highScore : ℤ
  round : ℤ
  hasRefilledAt500 : Bool
  lastRefillScore : ℤ
  turrets : List Turret
  cities : List City
deriving DecidableEq

/-- External per-tick observations: a tick carries the impact x-positions
of rockets that reached the ground this tick, the number of rockets
destroyed by explosions (each worth `ROCKET_SCORE`), and the lengths of the
rocket and interceptor lists after this tick's filtering; a click carries
the canvas point. -/
inductive Ev where
  | tick (impacts : List ℚ) (kills : ℕ) (nRockets nInterceptors : ℕ)
  | click (x y : ℚ)
deriving DecidableEq

/-- One simulation tick of `update` (lines 314-451) restricted to the state
in `Sim`, in source order: ground impacts deactivate cities/turrets, then
the 500-point refill, the endless 800-point refill, the win/loss check and
the round advancement.  `setScore` is a deferred React state update, so all
threshold checks read the score as of the start of the tick and the
`kills * ROCKET_SCORE` reward lands in the state seen by the next tick.
The whole body is gated on the state being PLAYING (line 315). -/
def tickSim (impacts : List ℚ) (kills nRockets nInterceptors : ℕ) (g : Sim) : Sim :=
  if g.gameState = GameState.PLAYING then
    let cities1 := impacts.foldl (fun cs ix => impactCities ix cs) g.cities
    let turrets1 := impacts.foldl (fun ts ix => impactTurrets ix ts) g.turrets
    let p500 := refill500 g.score g.hasRefilledAt500 turrets1
    let p800 := refill800 g.gameMode g.score g.lastRefillScore p500.1
    let wl := checkWinLoss g.gameMode g.score g.highScore p800.1
    let adv := roundAdvance nRockets nInterceptors p800.1 g.round
    { g with cities := cities1, turrets := adv.1,
             score := g.score + (kills : ℤ) * ROCKET_SCORE,
             hasRefilledAt500 := p500.2, lastRefillScore := p800.2,
             gameState := wl.1, highScore := wl.2, round := adv.2 }
  else g

/-- A click event (lines 272-312), gated on the state being PLAYING
(line 273); the created interceptor joins the in-flight list, which is not
part of `Sim`. -/
def clickSim (x y : ℚ) (g : Sim) : Sim :=
  if g.gameState = GameState.PLAYING then
    { g with turrets := (clickLaunch x y g.turrets).1 }
  else g

/-- Dispatch one event. -/
def stepSim : Ev → Sim → Sim
  | Ev.tick impacts kills nR nI, g => tickSim impacts kills nR nI g
  | Ev.click x y, g => clickSim x y g

/-- Run a sequence of events. -/
def runSim (evs : List Ev) (g : Sim) : Sim :=
  evs.foldl (fun g e => stepSim e g) g

/-- Whether the 500-point refill condition of line 413 fires. -/
def fires500 (score : ℤ) (latch : Bool) : Bool :=
  decide (500 ≤ score) && !latch

/-- Per-tick firing trace of the 500-point refill along a sequence of
observed scores, threading the `hasRefilledAt500` latch exactly as
lines 413 and 421 do. -/
def run500 (latch : Bool) : List ℤ → List Bool
  | [] => []
  | s :: rest => fires500 s latch :: run500 (latch || fires500 s latch) rest

/-- Specification-side trace for the 500-point milestone, following the
spec's words: the refill fires exactly on the first tick whose score is
at least 500, and never again. -/
def specFirstAt500 : List ℤ → List Bool
  | [] => []
  | s :: rest =>
      if 500 ≤ s then true :: rest.map (fun _ => false)
      else false :: specFirstAt500 rest

/-! ### Theorems -/

/-- Claim C1.  The claim states that an entity whose start equals its
destination is treated as immediately arrived and its position never
becomes NaN.  The code does the opposite: with `start = end` the computed
length is `√0 = 0` (first conjunct), the division `0/0` makes both
coordinates of `current` non-finite (NaN), and the arrival tests
`current.y >= end.y` / `current.y <= target.y` are false on NaN, so the
entity is never treated as arrived.  Shown here evaluated at the failing
inputs: a rocket with `start = end = (100, 50)` and an interceptor created
by clicking exactly on its turret at `(300, 560)`. -/
theorem degenerate_direction_not_arrived :
    IsSqrt (distSq ⟨100, 50⟩ ⟨100, 50⟩) 0 ∧
    IsSqrt (distSq ⟨300, 560⟩ ⟨300, 560⟩) 0 ∧
    (rocketMoveJS ⟨⟨100, 50⟩, ⟨100, 50⟩, ⟨some 100, some 50⟩, 27 / 20⟩ 0).current =
      ⟨none, none⟩ ∧
    rocketArrivedJS (rocketMoveJS ⟨⟨100, 50⟩, ⟨100, 50⟩, ⟨some 100, some 50⟩, 27 / 20⟩ 0) =
      false ∧
    (interceptorMoveJS ⟨⟨300, 560⟩, ⟨300, 560⟩, ⟨some 300, some 560⟩, 9⟩ 0).current =
      ⟨none, none⟩ ∧
    interceptorArrivedJS (interceptorMoveJS ⟨⟨300, 560⟩, ⟨300, 560⟩, ⟨some 300, some 560⟩, 9⟩ 0) =
      false := by
  refine ⟨⟨le_refl 0, by norm_num [distSq]⟩, ⟨le_refl 0, by norm_num [distSq]⟩, ?_, ?_, ?_, ?_⟩ <;>
    norm_num [rocketMoveJS, interceptorMoveJS, rocketArrivedJS, interceptorArrivedJS,
      jsAdd, jsMul, jsDiv, jsGe, jsLe]

/-- Claim C2, counterexample.  The claim demands a transition to LOST on
every tick where all turrets are inactive, regardless of mode and score;
but the win check is the first branch of the `if/else if` chain
(lines 437-445), so in CLASSIC mode with score 1000 and all three turrets
inactive the state becomes WON, not LOST. -/
theorem loss_overridden_by_win_counterexample :
    (∀ t ∈ ([⟨60, 560, 0, 20, false⟩, ⟨400, 560, 3, 40, false⟩,
             ⟨740, 560, 0, 20, false⟩] : List Turret), t.active = false) ∧
    checkWinLoss GameMode.CLASSIC 1000 650
      [⟨60, 560, 0, 20, false⟩, ⟨400, 560, 3, 40, false⟩, ⟨740, 560, 0, 20, false⟩] =
      (GameState.WON, 650) ∧
    GameState.WON ≠ GameState.LOST := by
  decide

/-- Claim C2, amended.  On a tick where every turret is inactive, unless
the mode is CLASSIC with score ≥ WIN_SCORE (in which case the earlier
`else if` branch makes the state WON), the state becomes terminal LOST,
and the persisted high score is the score if it strictly exceeds the
stored high score, otherwise the stored high score. -/
theorem loss_transition_amended (mode : GameMode) (score highScore : ℤ)
    (ts : List Turret) (hall : ∀ t ∈ ts, t.active = false)
    (hnw : ¬(mode = GameMode.CLASSIC ∧ WIN_SCORE ≤ score)) :
    checkWinLoss mode score highScore ts =
      (GameState.LOST, if highScore < score then score else highScore) := by
  unfold checkWinLoss
  rw [if_neg hnw, if_pos]
  simp only [List.all_eq_true, decide_eq_true_eq]
  exact hall

/-- Claim C2, witness for the amended theorem: endless mode, score 700,
stored high score 650, all turrets inactive — the state becomes LOST and
700 is persisted. -/
theorem loss_transition_amended_witness :
    checkWinLoss GameMode.ENDLESS 700 650
      [⟨60, 560, 0, 20, false⟩, ⟨400, 560, 0, 40, false⟩, ⟨740, 560, 2, 20, false⟩] =
      (GameState.LOST, 700) :=
  (loss_transition_amended GameMode.ENDLESS 700 650
      [⟨60, 560, 0, 20, false⟩, ⟨400, 560, 0, 40, false⟩, ⟨740, 560, 2, 20, false⟩]
      (by decide) (by decide)).trans (by decide)

/-- Invariant satisfied by every live explosion: a positive radius, a
radius at most one growth increment above `maxRadius`, and — while still
growing — a radius strictly below `maxRadius` (the growth step of line 371
flips the flag as soon as the radius reaches `maxRadius`). -/
def ExpInv (e : Explosion) : Prop :=
  0 < e.radius ∧ e.radius ≤ e.maxRadius + EXPLOSION_SPEED ∧
    (e.growing = true → e.radius < e.maxRadius)

/-- Closed form of the growth phase of a ground-impact explosion: for the
first 29 ticks the radius is `2 + 1.8·k` and the explosion keeps growing. -/
lemma groundExplosion_iterate (p : Point) (k : ℕ) (hk : k ≤ 29) :
    (stepExplosion)^[k] (groundExplosion p) =
      ⟨p, 2 + EXPLOSION_SPEED * k, 55, true, 1⟩ := by
  induction k with
  | zero => simp [groundExplosion]
  | succ n ih =>
      have hn : n ≤ 29 := by omega
      have hc : (n : ℚ) ≤ 28 := by exact_mod_cast (show n ≤ 28 by omega)
      have hlt : 2 + EXPLOSION_SPEED * (n : ℚ) + EXPLOSION_SPEED < 55 := by
        rw [EXPLOSION_SPEED]; nlinarith
      rw [Function.iterate_succ_apply', ih hn,
          show ((n + 1 : ℕ) : ℚ) = (n : ℚ) + 1 by push_cast; ring]
      simp only [stepExplosion]
      rw [if_pos trivial]
      dsimp only
      rw [decide_eq_true hlt,
          show 2 + EXPLOSION_SPEED * (n : ℚ) + EXPLOSION_SPEED
              = 2 + EXPLOSION_SPEED * ((n : ℚ) + 1) by ring]

/-- Claim C3, counterexample.  The claim asserts `radius ≤ maxRadius` for
every explosion at every tick; but the growth step adds `EXPLOSION_SPEED`
before testing the bound, so the ground-impact explosion (radius 2,
maxRadius 55) is live through its first 30 ticks and after the 30th tick
its radius is 56, strictly above its `maxRadius`. -/
theorem explosion_radius_exceeds_max_counterexample :
    (∀ k, k < 31 → explosionAlive ((stepExplosion)^[k] (groundExplosion ⟨100, 560⟩))) ∧
    (groundExplosion ⟨100, 560⟩).maxRadius <
      ((stepExplosion)^[30] (groundExplosion ⟨100, 560⟩)).radius := by
  have h30 : (stepExplosion)^[30] (groundExplosion (⟨100, 560⟩ : Point)) =
      ⟨⟨100, 560⟩, 56, 55, false, 1⟩ := by
    rw [show (30 : ℕ) = 29 + 1 from rfl, Function.iterate_succ_apply',
        groundExplosion_iterate _ 29 (by omega)]
    norm_num [stepExplosion, EXPLOSION_SPEED]
  constructor
  · intro k hk
    rcases (show k ≤ 29 ∨ k = 30 by omega) with h | h
    · rw [groundExplosion_iterate _ k h]
      refine ⟨?_, by norm_num [explosionAlive]⟩
      have hc : (0 : ℚ) ≤ (k : ℚ) := Nat.cast_nonneg k
      show (0 : ℚ) < 2 + EXPLOSION_SPEED * (k : ℚ)
      rw [EXPLOSION_SPEED]; nlinarith
    · rw [h, h30]; exact ⟨by norm_num, by norm_num⟩
  · rw [h30]; norm_num [groundExplosion]

/-- Claim C3, amended.  For every live explosion (satisfying the invariant
`ExpInv`, which holds at both spawn shapes of the code), the tick keeps the
radius at most `maxRadius + EXPLOSION_SPEED` — the growth step can
overshoot `maxRadius` by at most one increment of 1.8 — preserves the
invariant while the explosion stays live, strictly increases the radius
while growing and strictly decreases it while shrinking. -/
theorem explosion_radius_bounds_amended (e : Explosion) (h : ExpInv e) :
    (stepExplosion e).maxRadius = e.maxRadius ∧
    (stepExplosion e).radius ≤ e.maxRadius + EXPLOSION_SPEED ∧
    (0 < (stepExplosion e).radius → ExpInv (stepExplosion e)) ∧
    (e.growing = true → e.radius < (stepExplosion e).radius) ∧
    (e.growing = false → (stepExplosion e).radius < e.radius) ∧
    ExpInv (groundExplosion e.pos) ∧ ExpInv (blastExplosion e.pos) := by
  obtain ⟨h1, h2, h3⟩ := h
  have hspawn₁ : ExpInv (groundExplosion e.pos) := by
    norm_num [ExpInv, groundExplosion, EXPLOSION_SPEED]
  have hspawn₂ : ExpInv (blastExplosion e.pos) := by
    norm_num [ExpInv, blastExplosion, EXPLOSION_MAX_RADIUS, EXPLOSION_SPEED]
  have hES : (0 : ℚ) < EXPLOSION_SPEED := by norm_num [EXPLOSION_SPEED]
  have hES' : (0 : ℚ) < EXPLOSION_SPEED * (2 / 5) := by norm_num [EXPLOSION_SPEED]
  by_cases hg : e.growing = true
  · have hlt := h3 hg
    have hstep : stepExplosion e =
        { e with radius := e.radius + EXPLOSION_SPEED,
                 growing := decide (e.radius + EXPLOSION_SPEED < e.maxRadius) } := by
      rw [stepExplosion, if_pos hg]
    rw [hstep]
    refine ⟨rfl, ?_, ?_, ?_, ?_, hspawn₁, hspawn₂⟩
    · show e.radius + EXPLOSION_SPEED ≤ e.maxRadius + EXPLOSION_SPEED
      linarith
    · intro hr
      have hr' : 0 < e.radius + EXPLOSION_SPEED := hr
      refine ⟨hr', ?_, ?_⟩
      · show e.radius + EXPLOSION_SPEED ≤ e.maxRadius + EXPLOSION_SPEED
        linarith
      · show decide (e.radius + EXPLOSION_SPEED < e.maxRadius) = true →
            e.radius + EXPLOSION_SPEED < e.maxRadius
        exact fun hdec => of_decide_eq_true hdec
    · intro _
      show e.radius < e.radius + EXPLOSION_SPEED
      linarith
    · intro hfalse
      exact Bool.noConfusion (hg.symm.trans hfalse)
  · have hstep : stepExplosion e =
        { e with radius := e.radius - EXPLOSION_SPEED * (2 / 5),
                 alpha := e.alpha - 1 / 50 } := by
      rw [stepExplosion, if_neg hg]
    rw [hstep]
    refine ⟨rfl, ?_, ?_, ?_, ?_, hspawn₁, hspawn₂⟩
    · show e.radius - EXPLOSION_SPEED * (2 / 5) ≤ e.maxRadius + EXPLOSION_SPEED
      linarith
    · intro hr
      refine ⟨hr, ?_, ?_⟩
      · show e.radius - EXPLOSION_SPEED * (2 / 5) ≤ e.maxRadius + EXPLOSION_SPEED
        linarith
      · show e.growing = true → e.radius - EXPLOSION_SPEED * (2 / 5) < e.maxRadius
        intro hgt; exact absurd hgt hg
    · intro hgt; exact absurd hgt hg
    · intro _
      show e.radius - EXPLOSION_SPEED * (2 / 5) < e.radius
      linarith

/-- Sample live explosion used by the C3 witness. -/
def sampleExplosion : Explosion := ⟨⟨0, 0⟩, 2, 55, true, 1⟩

/-- Claim C3, witness: the amended bound evaluated on a freshly spawned
ground-impact explosion. -/
theorem explosion_radius_bounds_amended_witness :
    (stepExplosion sampleExplosion).maxRadius = sampleExplosion.maxRadius ∧
    (stepExplosion sampleExplosion).radius ≤ sampleExplosion.maxRadius + EXPLOSION_SPEED ∧
    (0 < (stepExplosion sampleExplosion).radius → ExpInv (stepExplosion sampleExplosion)) ∧
    (sampleExplosion.growing = true →
      sampleExplosion.radius < (stepExplosion sampleExplosion).radius) ∧
    (sampleExplosion.growing = false →
      (stepExplosion sampleExplosion).radius < sampleExplosion.radius) ∧
    ExpInv (groundExplosion sampleExplosion.pos) ∧ ExpInv (blastExplosion sampleExplosion.pos) :=
  explosion_radius_bounds_amended sampleExplosion
    (by refine ⟨by norm_num [sampleExplosion], ?_, ?_⟩ <;>
          norm_num [sampleExplosion, EXPLOSION_SPEED])

/-- Sample turret list used by several witnesses. -/
def sampleTurrets : List Turret :=
  [⟨60, 560, 0, 20, true⟩, ⟨400, 560, 3, 40, true⟩, ⟨740, 560, 0, 20, false⟩]

/-- Claim C4.  The endless 800-point refill fires (setting every active
turret's ammo to its max and recording the score) exactly when the mode is
ENDLESS and the score is a positive exact multiple of 800 that differs from
the last refill score; otherwise it is a no-op; and re-running the check at
the same score after it has fired changes nothing — the refill cannot
double-fire while the score stays at the same multiple. -/
theorem endless_refill800_once_per_crossing (mode : GameMode)
    (score lastRefillScore : ℤ) (ts : List Turret) :
    ((mode = GameMode.ENDLESS ∧ 0 < score ∧ score % 800 = 0 ∧ score ≠ lastRefillScore) →
        refill800 mode score lastRefillScore ts = (refillActive ts, score)) ∧
    (¬(mode = GameMode.ENDLESS ∧ 0 < score ∧ score % 800 = 0 ∧ score ≠ lastRefillScore) →
        refill800 mode score lastRefillScore ts = (ts, lastRefillScore)) ∧
    refill800 mode score (refill800 mode score lastRefillScore ts).2
        (refill800 mode score lastRefillScore ts).1 =
      refill800 mode score lastRefillScore ts := by
  by_cases h : mode = GameMode.ENDLESS ∧ 0 < score ∧ score % 800 = 0 ∧
      score ≠ lastRefillScore
  · have h1 : refill800 mode score lastRefillScore ts = (refillActive ts, score) := by
      rw [refill800, if_pos h]
    refine ⟨fun _ => h1, fun hc => absurd h hc, ?_⟩
    rw [h1]
    show refill800 mode score score (refillActive ts) = (refillActive ts, score)
    rw [refill800, if_neg]
    intro hc
    exact hc.2.2.2 rfl
  · have h1 : refill800 mode score lastRefillScore ts = (ts, lastRefillScore) := by
      rw [refill800, if_neg h]
    refine ⟨fun hc => absurd hc h, fun _ => h1, ?_⟩
    rw [h1]
    show refill800 mode score lastRefillScore ts = (ts, lastRefillScore)
    exact h1

/-- Claim C4, witness: in endless mode at score 1600 (second multiple of
800) with last refill at 800, the refill fires. -/
theorem endless_refill800_once_per_crossing_witness :
    refill800 GameMode.ENDLESS 1600 800 sampleTurrets = (refillActive sampleTurrets, 1600) :=
  (endless_refill800_once_per_crossing GameMode.ENDLESS 1600 800 sampleTurrets).1
    ⟨rfl, by decide, by decide, by decide⟩

/-- Claim C5.  The round counter increments on a tick exactly when the
rocket list and the interceptor list are empty and every turret's ammo is
0; and when that condition holds, every still-active turret's ammo is
refilled to its max. -/
theorem round_advance_iff (nRockets nInterceptors : ℕ) (ts : List Turret) (round : ℤ) :
    ((roundAdvance nRockets nInterceptors ts round).2 = round + 1 ↔
      (nRockets = 0 ∧ nInterceptors = 0 ∧ ∀ t ∈ ts, t.ammo = 0)) ∧
    ((nRockets = 0 ∧ nInterceptors = 0 ∧ ∀ t ∈ ts, t.ammo = 0) →
      (roundAdvance nRockets nInterceptors ts round).1 = refillActive ts) := by
  by_cases h : nRockets = 0 ∧ (∀ t ∈ ts, t.ammo = 0) ∧ nInterceptors = 0
  · have h1 : roundAdvance nRockets nInterceptors ts round = (refillActive ts, round + 1) := by
      rw [roundAdvance, if_pos h]
    rw [h1]
    exact ⟨⟨fun _ => ⟨h.1, h.2.2, h.2.1⟩, fun _ => rfl⟩, fun _ => rfl⟩
  · have h1 : roundAdvance nRockets nInterceptors ts round = (ts, round) := by
      rw [roundAdvance, if_neg h]
    rw [h1]
    constructor
    · constructor
      · intro he
        exact absurd he (by omega)
      · intro hc
        exact absurd ⟨hc.1, hc.2.2, hc.2.1⟩ h
    · intro hc
      exact absurd ⟨hc.1, hc.2.2, hc.2.1⟩ h

/-- Claim C5, witness: with no rockets, no interceptors and all ammo 0,
advancing refills the active turrets. -/
theorem round_advance_iff_witness :
    (roundAdvance 0 0 [⟨60, 560, 0, 20, true⟩, ⟨400, 560, 0, 40, false⟩] 3).1 =
      refillActive [⟨60, 560, 0, 20, true⟩, ⟨400, 560, 0, 40, false⟩] :=
  (round_advance_iff 0 0 [⟨60, 560, 0, 20, true⟩, ⟨400, 560, 0, 40, false⟩] 3).2
    ⟨rfl, rfl, by decide⟩

/-- Helper: once the latch is set, the 500-point refill never fires again. -/
lemma run500_latched (scores : List ℤ) :
    run500 true scores = scores.map fun _ => false := by
  induction scores with
  | nil => rfl
  | cons s rest ih => simp [run500, fires500, ih]

/-- Claim C6.  Along any sequence of per-tick scores within one match
(latch initially false, as `startGame` resets it), the 500-point refill
fires exactly on the first tick whose score is at least 500 and never
again (`run500` equals the spec-side `specFirstAt500` trace); on the tick
it fires, `refill500` sets every still-active turret's ammo to its max and
latches; and `refill500` takes no game-mode argument at all — the latch is
mode-independent. -/
theorem refill500_once_per_match (scores : List ℤ) (score : ℤ) (latch : Bool)
    (ts : List Turret) :
    run500 false scores = specFirstAt500 scores ∧
    refill500 score latch ts =
      (if fires500 score latch then (refillActive ts, true) else (ts, latch)) := by
  constructor
  · induction scores with
    | nil => rfl
    | cons s rest ih =>
        by_cases h : 500 ≤ s
        · simp [run500, specFirstAt500, fires500, h, run500_latched]
        · simp [run500, specFirstAt500, fires500, h, ih]
  · by_cases h : 500 ≤ score ∧ latch = false
    · have hf : fires500 score latch = true := by
        rw [fires500, h.2]
        simp [h.1]
      rw [refill500, if_pos h, hf, if_pos rfl]
    · have hf : fires500 score latch = false := by
        rw [fires500]
        rcases Decidable.not_and_iff_or_not.mp h with h' | h'
        · simp [h']
        · have : latch = true := by
            cases hb : latch
            · exact absurd hb h'
            · rfl
          simp [this]
      rw [refill500, if_neg h, hf]
      simp

/-- Claim C6, witness: along the score trace 480, 500, 520 the refill fires
exactly at the second tick, and at score 700 with the latch clear the
refill fires and refills the active turrets. -/
theorem refill500_once_per_match_witness :
    run500 false [480, 500, 520] = [false, true, false] ∧
    refill500 700 false sampleTurrets = (refillActive sampleTurrets, true) :=
  ⟨(refill500_once_per_match [480, 500, 520] 700 false sampleTurrets).1.trans (by decide),
   (refill500_once_per_match [480, 500, 520] 700 false sampleTurrets).2.trans (by simp [fires500])⟩

/-- Claim C7.  A spawn attempt returns no rocket exactly when every city
and every turret is inactive (the spawn is silently skipped — the function
is total, so no error is possible); and any rocket it does create targets
the position of some currently active city or turret. -/
theorem spawn_skipped_iff_no_active_target (startX : ℚ) (pick : ℕ) (round : ℤ)
    (cities : List City) (turrets : List Turret) :
    (spawnRocket startX pick round cities turrets = none ↔
      ((∀ c ∈ cities, c.active = false) ∧ (∀ t ∈ turrets, t.active = false))) ∧
    (∀ r : Rocket, spawnRocket startX pick round cities turrets = some r →
      (∃ c ∈ cities, c.active = true ∧ r.«end» = ⟨c.x, c.y⟩) ∨
      (∃ t ∈ turrets, t.active = true ∧ r.«end» = ⟨t.x, t.y⟩)) := by
  have hlen : spawnTargets cities turrets = [] ↔
      ((∀ c ∈ cities, c.active = false) ∧ (∀ t ∈ turrets, t.active = false)) := by
    simp [spawnTargets, List.filter_eq_nil_iff]
  by_cases h : (spawnTargets cities turrets).length = 0
  · constructor
    · rw [spawnRocket, dif_pos h]
      exact iff_of_true rfl (hlen.mp (List.length_eq_zero.mp h))
    · intro r hr
      rw [spawnRocket, dif_pos h] at hr
      exact absurd hr (by simp)
  · constructor
    · rw [spawnRocket, dif_neg h]
      refine iff_of_false (by simp) ?_
      intro hrhs
      exact h (by rw [List.length_eq_zero]; exact hlen.mpr hrhs)
    · intro r hr
      rw [spawnRocket, dif_neg h] at hr
      obtain rfl := Option.some.inj hr
      have hmem := List.get_mem (spawnTargets cities turrets)
        (pick % (spawnTargets cities turrets).length) (Nat.mod_lt _ (Nat.pos_of_ne_zero h))
      rcases List.mem_append.mp hmem with hc | ht
      · left
        rcases List.mem_map.mp hc with ⟨c, hcf, hce⟩
        rcases List.mem_filter.mp hcf with ⟨hcmem, hcact⟩
        exact ⟨c, hcmem, hcact, hce.symm⟩
      · right
        rcases List.mem_map.mp ht with ⟨t, htf, hte⟩
        rcases List.mem_filter.mp htf with ⟨htmem, htact⟩
        exact ⟨t, htmem, htact, hte.symm⟩

/-- Sample active city used by the C7 witness. -/
def sampleCity : City := ⟨200, 560, true⟩

/-- Claim C7, witness: with one active city and no turrets, the spawned
rocket targets the city's position. -/
theorem spawn_skipped_iff_no_active_target_witness :
    (∃ c ∈ [sampleCity], c.active = true ∧
        ({ start := ⟨100, 0⟩, «end» := ⟨200, 560⟩, current := ⟨100, 0⟩,
           speed := 27 / 20 } : Rocket).«end» = ⟨c.x, c.y⟩) ∨
    (∃ t ∈ ([] : List Turret), t.active = true ∧
        ({ start := ⟨100, 0⟩, «end» := ⟨200, 560⟩, current := ⟨100, 0⟩,
           speed := 27 / 20 } : Rocket).«end» = ⟨t.x, t.y⟩) :=
  (spawn_skipped_iff_no_active_target 100 0 1 [sampleCity] []).2
    { start := ⟨100, 0⟩, «end» := ⟨200, 560⟩, current := ⟨100, 0⟩, speed := 27 / 20 }
    (by norm_num [spawnRocket, spawnTargets, sampleCity, ROCKET_BASE_SPEED])

/-- Claim C10.  A ground impact at x-position `ix` maps each turret and
city pointwise: position, ammo and max ammo are always unchanged (only the
`active` flag can change); an active entity within the 25 px strip is
deactivated; an entity not matching the condition — in particular any
entity outside the strip — is entirely unchanged. -/
theorem impact_frame_effect (ix : ℚ) (ts : List Turret) (cs : List City) :
    List.Forall₂ (fun t t' : Turret =>
        t'.x = t.x ∧ t'.y = t.y ∧ t'.ammo = t.ammo ∧ t'.maxAmmo = t.maxAmmo ∧
        (t.active = true ∧ |t.x - ix| < 25 → t'.active = false) ∧
        (¬(t.active = true ∧ |t.x - ix| < 25) → t' = t)) ts (impactTurrets ix ts) ∧
    List.Forall₂ (fun c c' : City =>
        c'.x = c.x ∧ c'.y = c.y ∧
        (c.active = true ∧ |c.x - ix| < 25 → c'.active = false) ∧
        (¬(c.active = true ∧ |c.x - ix| < 25) → c' = c)) cs (impactCities ix cs) := by
  constructor
  · rw [impactTurrets, List.forall₂_map_right_iff, List.forall₂_same]
    intro t _
    by_cases hcond : t.active = true ∧ |t.x - ix| < 25
    · rw [if_pos hcond]
      exact ⟨rfl, rfl, rfl, rfl, fun _ => rfl, fun hc => absurd hcond hc⟩
    · rw [if_neg hcond]
      exact ⟨rfl, rfl, rfl, rfl, fun hc => absurd hc hcond, fun _ => rfl⟩
  · rw [impactCities, List.forall₂_map_right_iff, List.forall₂_same]
    intro c _
    by_cases hcond : c.active = true ∧ |c.x - ix| < 25
    · rw [if_pos hcond]
      exact ⟨rfl, rfl, fun _ => rfl, fun hc => absurd hcond hc⟩
    · rw [if_neg hcond]
      exact ⟨rfl, rfl, fun hc => absurd hc hcond, fun _ => rfl⟩

/-- Claim C10, witness: an impact at x = 110 against one in-strip turret,
one out-of-strip turret and one in-strip city. -/
theorem impact_frame_effect_witness :
    List.Forall₂ (fun t t' : Turret =>
        t'.x = t.x ∧ t'.y = t.y ∧ t'.ammo = t.ammo ∧ t'.maxAmmo = t.maxAmmo ∧
        (t.active = true ∧ |t.x - 110| < 25 → t'.active = false) ∧
        (¬(t.active = true ∧ |t.x - 110| < 25) → t' = t))
      [⟨100, 560, 5, 20, true⟩, ⟨300, 560, 7, 40, true⟩]
      (impactTurrets 110 [⟨100, 560, 5, 20, true⟩, ⟨300, 560, 7, 40, true⟩]) ∧
    List.Forall₂ (fun c c' : City =>
        c'.x = c.x ∧ c'.y = c.y ∧
        (c.active = true ∧ |c.x - 110| < 25 → c'.active = false) ∧
        (¬(c.active = true ∧ |c.x - 110| < 25) → c' = c))
      [⟨120, 560, true⟩] (impactCities 110 [⟨120, 560, true⟩]) :=
  impact_frame_effect 110 [⟨100, 560, 5, 20, true⟩, ⟨300, 560, 7, 40, true⟩]
    [⟨120, 560, true⟩]

/-- Claim C8.  A rocket with distinct start and end and positive speed,
whose current position lies on its flight ray (`s` is the distance already
travelled — every spawned rocket starts at `s = 0` and each tick adds its
speed), with its end strictly below its start (true of every spawned
rocket: spawn y is 0 and targets sit on the ground line), strictly
decreases its Euclidean distance to the end point on every kinematics tick
after which it has still not arrived.  `dist`, `d₁`, `d₂` are the values
`Math.sqrt` yields for the start→end length and the current→end distances
before and after the tick. -/
theorem rocket_monotonic_approach (r : Rocket) (dist s d₁ d₂ : ℚ)
    (hdist : IsSqrt (distSq r.start r.«end») dist)
    (hne : r.start ≠ r.«end»)
    (hspeed : 0 < r.speed)
    (hy : r.start.y < r.«end».y)
    (hs : 0 ≤ s)
    (hcx : r.current.x = r.start.x + (r.«end».x - r.start.x) / dist * s)
    (hcy : r.current.y = r.start.y + (r.«end».y - r.start.y) / dist * s)
    (hlive : ¬ rocketArrived (rocketMove r dist))
    (hd₁ : IsSqrt (distSq r.current r.«end») d₁)
    (hd₂ : IsSqrt (distSq (rocketMove r dist).current r.«end») d₂) :
    d₂ < d₁ := by
  obtain ⟨hd0, hdsq⟩ := hdist
  have hdsq' : dist * dist =
      (r.«end».x - r.start.x) * (r.«end».x - r.start.x) +
      (r.«end».y - r.start.y) * (r.«end».y - r.start.y) := by
    rw [hdsq]; rfl
  have hposSq : 0 < distSq r.start r.«end» := by
    rcases lt_or_eq_of_le (add_nonneg (mul_self_nonneg (r.«end».x - r.start.x))
        (mul_self_nonneg (r.«end».y - r.start.y))) with h | h
    · exact h
    · exfalso
      apply hne
      have hx : r.«end».x - r.start.x = 0 := by nlinarith [mul_self_nonneg (r.«end».x - r.start.x), mul_self_nonneg (r.«end».y - r.start.y)]
      have hy' : r.«end».y - r.start.y = 0 := by nlinarith [mul_self_nonneg (r.«end».x - r.start.x), mul_self_nonneg (r.«end».y - r.start.y)]
      calc r.start = ⟨r.start.x, r.start.y⟩ := rfl
        _ = ⟨r.«end».x, r.«end».y⟩ := by rw [show r.«end».x = r.start.x by linarith, show r.«end».y = r.start.y by linarith]
        _ = r.«end» := rfl
  have hdist0 : 0 < dist := by
    rcases lt_or_eq_of_le hd0 with h | h
    · exact h
    · exfalso
      rw [← h] at hdsq
      rw [← hdsq] at hposSq
      nlinarith
  have hdne : dist ≠ 0 := ne_of_gt hdist0
  have hdy : 0 < r.«end».y - r.start.y := sub_pos.mpr hy
  have hlive' : r.current.y + (r.«end».y - r.start.y) / dist * r.speed < r.«end».y :=
    not_le.mp hlive
  rw [hcy] at hlive'
  have ha : 0 < (r.«end».y - r.start.y) / dist := div_pos hdy hdist0
  have h2 : (r.«end».y - r.start.y) / dist * (s + r.speed) <
      (r.«end».y - r.start.y) / dist * dist := by
    rw [div_mul_cancel₀ _ hdne]
    nlinarith [hlive']
  have key : s + r.speed < dist := (mul_lt_mul_left ha).mp h2
  have hsq1 : d₁ * d₁ = (dist - s) * (dist - s) := by
    rw [hd₁.2]
    show (r.«end».x - r.current.x) * (r.«end».x - r.current.x) +
         (r.«end».y - r.current.y) * (r.«end».y - r.current.y) =
         (dist - s) * (dist - s)
    rw [hcx, hcy]
    field_simp
    linear_combination (-((dist - s) * (dist - s))) * hdsq'
  have hsq2 : d₂ * d₂ = (dist - s - r.speed) * (dist - s - r.speed) := by
    rw [hd₂.2]
    show (r.«end».x - (r.current.x + (r.«end».x - r.start.x) / dist * r.speed)) *
           (r.«end».x - (r.current.x + (r.«end».x - r.start.x) / dist * r.speed)) +
         (r.«end».y - (r.current.y + (r.«end».y - r.start.y) / dist * r.speed)) *
           (r.«end».y - (r.current.y + (r.«end».y - r.start.y) / dist * r.speed)) =
         (dist - s - r.speed) * (dist - s - r.speed)
    rw [hcx, hcy]
    field_simp
    linear_combination (-((dist - s - r.speed) * (dist - s - r.speed))) * hdsq'
  have hApos : 0 < dist - s := by linarith
  have hBpos : 0 < dist - s - r.speed := by linarith
  have hd1e : d₁ = dist - s := by
    rcases mul_self_eq_mul_self_iff.mp hsq1 with h | h
    · exact h
    · exfalso
      have := hd₁.1
      linarith
  have hd2e : d₂ = dist - s - r.speed := by
    rcases mul_self_eq_mul_self_iff.mp hsq2 with h | h
    · exact h
    · exfalso
      have := hd₂.1
      linarith
  rw [hd1e, hd2e]
  linarith

/-- Claim C8, witness: the rocket from (0,0) to (0,10) at speed 1, already
at (0,3); after the tick it is at (0,4), not yet arrived, and its distance
to the end point drops from 7 to 6. -/
theorem rocket_monotonic_approach_witness : (6 : ℚ) < 7 :=
  rocket_monotonic_approach ⟨⟨0, 0⟩, ⟨0, 10⟩, ⟨0, 3⟩, 1⟩ 10 3 7 6
    (by norm_num [IsSqrt, distSq])
    (by simp)
    (by norm_num)
    (by norm_num)
    (by norm_num)
    (by norm_num)
    (by norm_num)
    (by norm_num [rocketArrived, rocketMove])
    (by norm_num [IsSqrt, distSq])
    (by norm_num [IsSqrt, distSq, rocketMove])

/-- Soundness of the nearest-turret scan: any index it returns points at a
turret that is active with positive ammo (positions past `i` in the walk),
unless it came from the accumulator, which predicate `C` describes. -/
lemma bestScan_spec (x y : ℚ) :
    ∀ (ts : List Turret) (i : ℕ) (acc : Option (ℕ × ℚ)) (C : ℕ → Prop),
      (∀ j d, acc = some (j, d) → C j) →
      ∀ j d, bestScan x y ts i acc = some (j, d) →
        C j ∨ ∃ k, ∃ hk : k < ts.length,
          j = i + k ∧ (ts.get ⟨k, hk⟩).active = true ∧ 0 < (ts.get ⟨k, hk⟩).ammo := by
  intro ts
  induction ts with
  | nil =>
      intro i acc C hacc j d hres
      rw [bestScan] at hres
      exact Or.inl (hacc j d hres)
  | cons t rest ih =>
      intro i acc C hacc j d hres
      rw [bestScan] at hres
      have hacc' : ∀ j d,
          (if t.active = true ∧ 0 < t.ammo ∧
              closerThan (distSq ⟨t.x, t.y⟩ ⟨x, y⟩) acc = true
           then some (i, distSq ⟨t.x, t.y⟩ ⟨x, y⟩) else acc) = some (j, d) →
          (C j ∨ (j = i ∧ t.active = true ∧ 0 < t.ammo)) := by
        intro j d hj
        by_cases hcond : t.active = true ∧ 0 < t.ammo ∧
            closerThan (distSq ⟨t.x, t.y⟩ ⟨x, y⟩) acc = true
        · rw [if_pos hcond] at hj
          have h := Option.some.inj hj
          have h1 : i = j := congrArg Prod.fst h
          exact Or.inr ⟨h1.symm, hcond.1, hcond.2.1⟩
        · rw [if_neg hcond] at hj
          exact Or.inl (hacc j d hj)
      rcases ih (i + 1) _ _ hacc' j d hres with hC | ⟨k, hk, hjk, hkact, hkammo⟩
      · rcases hC with hC | ⟨hji, htact, htammo⟩
        · exact Or.inl hC
        · refine Or.inr ⟨0, by simp, by omega, ?_, ?_⟩
          · exact htact
          · exact htammo
      · refine Or.inr ⟨k + 1, by simpa using hk, by omega, ?_, ?_⟩
        · exact hkact
        · exact hkammo

/-- A click either leaves the turret list unchanged, or decrements the ammo
of one turret that is active with positive ammo. -/
lemma clickLaunch_cases (x y : ℚ) (ts : List Turret) :
    (clickLaunch x y ts).1 = ts ∨
    ∃ i₀ t', ts[i₀]? = some t' ∧ t'.active = true ∧ 0 < t'.ammo ∧
      (clickLaunch x y ts).1 = ts.set i₀ { t' with ammo := t'.ammo - 1 } := by
  unfold clickLaunch
  split
  · exact Or.inl rfl
  · rename_i i₀ d hb
    split
    · exact Or.inl rfl
    · rename_i t' hb2
      refine Or.inr ⟨i₀, t', hb2, ?_, ?_, rfl⟩ <;>
      · rcases bestScan_spec x y ts 0 none (fun _ => False)
            (by intro _ _ h; cases h) i₀ d hb with hF | ⟨k, hk, hik, hkact, hkammo⟩
        · exact hF.elim
        · have hik' : i₀ = k := by omega
          subst hik'
          rw [List.getElem?_eq_getElem hk] at hb2
          have ht' := Option.some.inj hb2
          rw [← ht']
          first
            | exact hkact
            | exact hkammo

/-- A click never touches an inactive turret's entry. -/
lemma clickLaunch_preserve (x y : ℚ) (ts : List Turret) (i : ℕ) (t : Turret)
    (hget : ts[i]? = some t) (hact : t.active = false) :
    (clickLaunch x y ts).1[i]? = some t := by
  rcases clickLaunch_cases x y ts with h | ⟨i₀, t', hb2, ht'act, _, h⟩
  · rw [h]; exact hget
  · rw [h]
    have hne : i₀ ≠ i := by
      intro he
      subst he
      rw [hget] at hb2
      have := Option.some.inj hb2
      rw [← this] at ht'act
      rw [hact] at ht'act
      exact Bool.noConfusion ht'act
    rw [List.getElem?_set_ne hne]
    exact hget

/-- A pointwise turret transform that fixes inactive turrets preserves an
inactive turret's entry under `List.map`. -/
lemma map_preserve {f : Turret → Turret} (hf : ∀ t : Turret, t.active = false → f t = t)
    (ts : List Turret) (i : ℕ) (t : Turret) (hget : ts[i]? = some t)
    (hact : t.active = false) : (ts.map f)[i]? = some t := by
  rw [List.getElem?_map, hget, Option.map_some']
  rw [hf t hact]

/-- Ground impacts never touch an inactive turret's entry. -/
lemma impactTurrets_preserve (ix : ℚ) (ts : List Turret) (i : ℕ) (t : Turret)
    (hget : ts[i]? = some t) (hact : t.active = false) :
    (impactTurrets ix ts)[i]? = some t := by
  refine map_preserve ?_ ts i t hget hact
  intro u hu
  rw [if_neg]
  intro hc
  rw [hu] at hc
  exact Bool.noConfusion hc.1

/-- Folding ground impacts never touches an inactive turret's entry. -/
lemma foldl_impacts_preserve (impacts : List ℚ) :
    ∀ (ts : List Turret) (i : ℕ) (t : Turret), ts[i]? = some t → t.active = false →
      (impacts.foldl (fun ts ix => impactTurrets ix ts) ts)[i]? = some t := by
  induction impacts with
  | nil => intro ts i t hget _; exact hget
  | cons ix rest ih =>
      intro ts i t hget hact
      exact ih (impactTurrets ix ts) i t (impactTurrets_preserve ix ts i t hget hact) hact

/-- Ammo refills never touch an inactive turret's entry. -/
lemma refillActive_preserve (ts : List Turret) (i : ℕ) (t : Turret)
    (hget : ts[i]? = some t) (hact : t.active = false) :
    (refillActive ts)[i]? = some t := by
  refine map_preserve ?_ ts i t hget hact
  intro u hu
  rw [if_neg]
  intro hc
  rw [hu] at hc
  exact Bool.noConfusion hc

/-- The 500-point refill either refills the active turrets or does nothing. -/
lemma refill500_fst (s : ℤ) (l : Bool) (ts : List Turret) :
    (refill500 s l ts).1 = refillActive ts ∨ (refill500 s l ts).1 = ts := by
  rw [refill500]
  split
  · exact Or.inl rfl
  · exact Or.inr rfl

/-- The 800-point refill either refills the active turrets or does nothing. -/
lemma refill800_fst (m : GameMode) (s l : ℤ) (ts : List Turret) :
    (refill800 m s l ts).1 = refillActive ts ∨ (refill800 m s l ts).1 = ts := by
  rw [refill800]
  split
  · exact Or.inl rfl
  · exact Or.inr rfl

/-- The round-advance condition fails as soon as some turret holds ammo. -/
lemma roundAdvance_no_advance (nR nI : ℕ) (ts : List Turret) (round : ℤ)
    (t : Turret) (hmem : t ∈ ts) (hammo : t.ammo ≠ 0) :
    roundAdvance nR nI ts round = (ts, round) := by
  rw [roundAdvance, if_neg]
  intro hc
  exact hammo (hc.2.1 t hmem)

/-- One tick preserves an inactive-with-ammo turret's entry verbatim and
leaves the round counter unchanged. -/
lemma tickSim_preserve (impacts : List ℚ) (kills nR nI : ℕ) (g : Sim) (i : ℕ)
    (t : Turret) (hget : g.turrets[i]? = some t) (hact : t.active = false)
    (hammo : 0 < t.ammo) :
    (tickSim impacts kills nR nI g).turrets[i]? = some t ∧
    (tickSim impacts kills nR nI g).round = g.round := by
  by_cases hst : g.gameState = GameState.PLAYING
  · have h1 : (impacts.foldl (fun ts ix => impactTurrets ix ts) g.turrets)[i]? = some t :=
      foldl_impacts_preserve impacts g.turrets i t hget hact
    have h2 : (refill500 g.score g.hasRefilledAt500
        (impacts.foldl (fun ts ix => impactTurrets ix ts) g.turrets)).1[i]? = some t := by
      rcases refill500_fst g.score g.hasRefilledAt500
          (impacts.foldl (fun ts ix => impactTurrets ix ts) g.turrets) with h | h <;> rw [h]
      · exact refillActive_preserve _ i t h1 hact
      · exact h1
    have h3 : (refill800 g.gameMode g.score g.lastRefillScore
        (refill500 g.score g.hasRefilledAt500
          (impacts.foldl (fun ts ix => impactTurrets ix ts) g.turrets)).1).1[i]? = some t := by
      rcases refill800_fst g.gameMode g.score g.lastRefillScore
          (refill500 g.score g.hasRefilledAt500
            (impacts.foldl (fun ts ix => impactTurrets ix ts) g.turrets)).1 with h | h <;> rw [h]
      · exact refillActive_preserve _ i t h2 hact
      · exact h2
    have hmem : t ∈ (refill800 g.gameMode g.score g.lastRefillScore
        (refill500 g.score g.hasRefilledAt500
          (impacts.foldl (fun ts ix => impactTurrets ix ts) g.turrets)).1).1 :=
      List.getElem?_mem h3
    have hadv := roundAdvance_no_advance nR nI
      (refill800 g.gameMode g.score g.lastRefillScore
        (refill500 g.score g.hasRefilledAt500
          (impacts.foldl (fun ts ix => impactTurrets ix ts) g.turrets)).1).1
      g.round t hmem (by omega)
    rw [tickSim, if_pos hst]
    constructor
    · show (roundAdvance nR nI
        (refill800 g.gameMode g.score g.lastRefillScore
          (refill500 g.score g.hasRefilledAt500
            (impacts.foldl (fun ts ix => impactTurrets ix ts) g.turrets)).1).1
        g.round).1[i]? = some t
      rw [hadv]
      exact h3
    · show (roundAdvance nR nI
        (refill800 g.gameMode g.score g.lastRefillScore
          (refill500 g.score g.hasRefilledAt500
            (impacts.foldl (fun ts ix => impactTurrets ix ts) g.turrets)).1).1
        g.round).2 = g.round
      rw [hadv]
  · rw [tickSim, if_neg hst]
    exact ⟨hget, rfl⟩

/-- One event (tick or click) preserves an inactive-with-ammo turret's
entry and the round counter. -/
lemma stepSim_preserve (e : Ev) (g : Sim) (i : ℕ) (t : Turret)
    (hget : g.turrets[i]? = some t) (hact : t.active = false) (hammo : 0 < t.ammo) :
    (stepSim e g).turrets[i]? = some t ∧ (stepSim e g).round = g.round := by
  cases e with
  | tick impacts kills nR nI => exact tickSim_preserve impacts kills nR nI g i t hget hact hammo
  | click x y =>
      rw [stepSim, clickSim]
      by_cases hst : g.gameState = GameState.PLAYING
      · rw [if_pos hst]
        exact ⟨clickLaunch_preserve x y g.turrets i t hget hact, rfl⟩
      · rw [if_neg hst]
        exact ⟨hget, rfl⟩

/-- Claim C9.  If some turret is inactive while holding ammo, then along
any further sequence of ticks and clicks that turret's entry never changes
(in particular its ammo is never decremented and it stays inactive) and the
round counter never increments again: the round-advance condition demands
every turret's ammo — inactive turrets included — to be 0, an inactive
turret can never launch, and every refill path touches only active
turrets. -/
theorem inactive_turret_with_ammo_blocks_round (evs : List Ev) (g : Sim) (i : ℕ)
    (t : Turret) (hget : g.turrets[i]? = some t) (hact : t.active = false)
    (hammo : 0 < t.ammo) :
    (runSim evs g).turrets[i]? = some t ∧ (runSim evs g).round = g.round := by
  induction evs generalizing g with
  | nil => exact ⟨hget, rfl⟩
  | cons e rest ih =>
      have hstep := stepSim_preserve e g i t hget hact hammo
      have hrest := ih (stepSim e g) hstep.1
      exact ⟨hrest.1, hrest.2.trans hstep.2⟩

/-- Sample match state for the C9 witness: the first turret is destroyed
but still holds 5 ammo. -/
def sampleSim : Sim :=
  { gameMode := GameMode.ENDLESS, gameState := GameState.PLAYING,
    score := 0, highScore := 0, round := 1,
    hasRefilledAt500 := false, lastRefillScore := 0,
    turrets := [⟨60, 560, 5, 20, false⟩, ⟨400, 560, 40, 40, true⟩],
    cities := [⟨200, 560, true⟩] }

/-- Claim C9, witness: after a click and a tick with one impact, the dead
turret's entry is untouched and the round counter is still 1. -/
theorem inactive_turret_with_ammo_blocks_round_witness :
    (runSim [Ev.click 400 560, Ev.tick [100] 1 0 0] sampleSim).turrets[0]? =
      some ⟨60, 560, 5, 20, false⟩ ∧
    (runSim [Ev.click 400 560, Ev.tick [100] 1 0 0] sampleSim).round = sampleSim.round :=
  inactive_turret_with_ammo_blocks_round [Ev.click 400 560, Ev.tick [100] 1 0 0]
    sampleSim 0 ⟨60, 560, 5, 20, false⟩ rfl rfl (by decide)

end SooNova
